import Mathlib

/-!
Shallow embedding of the FIFO inventory analytics engine of
`src/app.py` (class `InventoryAnalyzer`).

Modelling conventions:
* An instant is an integer count of seconds; Python's `timedelta.days` is
  floor division of the difference by 86400 (`Int.fdiv`).
* Costs are exact rationals (`Rat`); the Python code uses floats, but no
  claim depends on float rounding.
* The nested `defaultdict(lambda: defaultdict(deque))` keyed by product
  then location is modelled as an insertion-ordered association list keyed
  by the (product, location) pair, with lookup defaulting to the empty
  queue; `setQueue` updates the entry in place or appends a new entry at
  the end, which is Python's dict insertion-order behaviour.
* The per-unit representation of `_add_stock` (one deque entry per unit)
  is kept: a queue's length is its remaining quantity.
* The shortfall warning printed by `_remove_stock` (line 155) is modelled
  as an emitted `ShortfallWarning` value.
-/

/-- Python's `(later - earlier).days`: floor of the difference in seconds
divided by the 86400 seconds of a day. -/
def daysBetween (later earlier : Int) : Int :=
  Int.fdiv (later - earlier) 86400

/-- One entry of a per-key deque: `{'date': ..., 'cost': ..., 'reason': ...}`
appended by `_add_stock` (app.py lines 120-125). One entry = one unit. -/
structure StockItem where
  date : Int
  cost : Rat
  reason : String
deriving DecidableEq, Repr

/-- A (product, location) ledger key. -/
abbrev LedgerKey := String × String

/-- One row of the prepared dataframe as consumed by
`process_inventory_movements` (app.py lines 98-104): `cost = none` models a
missing (`NaN`) `Cost` cell. -/
structure MovementEvent where
  product : String
  location : String
  qty : Int
  date : Int
  cost : Option Rat
  reason : String
deriving DecidableEq, Repr

/-- One element of `self.shelf_time_records` (app.py lines 141-150). -/
structure ShelfTimeRecord where
  product : String
  location : String
  purchase_date : Int
  sale_date : Int
  shelf_time_days : Int
  unit_cost : Rat
  purchase_reason : String
  sale_reason : String
deriving DecidableEq, Repr

/-- The warning printed at app.py line 155 when an outbound request could
not be fully matched: requested quantity and the quantity actually removed. -/
structure ShortfallWarning where
  product : String
  location : String
  requested_qty : Int
  removed_qty : Int
deriving DecidableEq, Repr

/-- The mutable state of an `InventoryAnalyzer`: the per-key deques of
`self.current_stock`, plus the accumulated records and warnings. -/
structure AnalyzerState where
  current_stock : List (LedgerKey × List StockItem)
  shelf_time_records : List ShelfTimeRecord
  warnings : List ShortfallWarning
deriving DecidableEq, Repr

/-- Fresh analyzer: empty ledger, no records, no warnings. -/
def initialState : AnalyzerState := ⟨[], [], []⟩

/-- `self.current_stock[product][location]` as a read: a missing key reads
as the empty deque (defaultdict). -/
def getQueue (s : List (LedgerKey × List StockItem)) (k : LedgerKey) :
    List StockItem :=
  match s with
  | [] => []
  | (k', q) :: rest => if k' = k then q else getQueue rest k

/-- Writing a key's deque: update in place if present, else append the new
entry at the end (Python dict insertion order). -/
def setQueue (s : List (LedgerKey × List StockItem)) (k : LedgerKey)
    (q : List StockItem) : List (LedgerKey × List StockItem) :=
  match s with
  | [] => [(k, q)]
  | (k', q') :: rest =>
      if k' = k then (k, q) :: rest else (k', q') :: setQueue rest k q

/-- `_add_stock` (app.py lines 113-125): computes
`unit_cost = cost / qty if qty > 0 else 0` and appends one entry per unit
(`for _ in range(qty)`) to the tail of the key's deque. -/
def addStock (s : AnalyzerState) (product location : String) (date : Int)
    (qty : Int) (cost : Rat) (reason : String) : AnalyzerState :=
  let unit_cost : Rat := if qty > 0 then cost / (qty : Rat) else 0
  let item : StockItem := ⟨date, unit_cost, reason⟩
  { s with
    current_stock :=
      setQueue s.current_stock (product, location)
        (getQueue s.current_stock (product, location) ++
          List.replicate qty.toNat item) }

/-- The record built at app.py lines 141-150 for one popped unit. -/
def mkShelfRecord (product location : String) (date : Int)
    (reason : String) (item : StockItem) : ShelfTimeRecord :=
  ⟨product, location, item.date, date, daysBetween date item.date,
    item.cost, item.reason, reason⟩

/-- The `while removed_qty < qty and deque:` loop of `_remove_stock`
(app.py lines 133-152): pops from the head until the request is satisfied
or the deque is empty, emitting one record per popped unit. Returns the
remaining deque and the records in emission order. -/
def removeLoop (product location : String) (date : Int) (reason : String) :
    Nat → List StockItem → List StockItem × List ShelfTimeRecord
  | 0, q => (q, [])
  | _ + 1, [] => ([], [])
  | n + 1, item :: rest =>
      let step := removeLoop product location date reason n rest
      (step.1, mkShelfRecord product location date reason item :: step.2)

/-- `_remove_stock` (app.py lines 127-155): run the FIFO pop loop, then
warn if fewer units were removed than requested. Reading the deque through
the defaultdict creates the (possibly empty) entry, hence the unconditional
`setQueue`. -/
def removeStock (s : AnalyzerState) (product location : String)
    (date : Int) (qty : Int) (reason : String) : AnalyzerState :=
  let k : LedgerKey := (product, location)
  let q := getQueue s.current_stock k
  let step := removeLoop product location date reason qty.toNat q
  let removed_qty : Nat := min qty.toNat q.length
  { current_stock := setQueue s.current_stock k step.1
    shelf_time_records := s.shelf_time_records ++ step.2
    warnings :=
      if (removed_qty : Int) < qty then
        s.warnings ++ [⟨product, location, qty, removed_qty⟩]
      else s.warnings }

/-- One iteration of `process_inventory_movements` (app.py lines 98-111):
`cost = abs(row['Cost']) if pd.notna(row['Cost']) else 0`; inbound for
`qty > 0`, outbound with `abs(qty)` for `qty < 0`, nothing otherwise. -/
def processEvent (s : AnalyzerState) (e : MovementEvent) : AnalyzerState :=
  let cost : Rat := match e.cost with | some c => |c| | none => 0
  if e.qty > 0 then
    addStock s e.product e.location e.date e.qty cost e.reason
  else if e.qty < 0 then
    removeStock s e.product e.location e.date |e.qty| e.reason
  else s

/-- `process_inventory_movements` over a whole (already sorted) event list. -/
def processMovements (events : List MovementEvent) : AnalyzerState :=
  events.foldl processEvent initialState

/-- One opening-stock row as accepted by `add_opening_stock`
(app.py lines 255-272). -/
structure OpeningStockItem where
  product : String
  location : String
  qty : Int
  date : Int
  cost_per_unit : Rat
deriving DecidableEq, Repr

/-- `add_opening_stock` (app.py lines 255-272): each row is enqueued via
`_add_stock(product, location, date, qty, cost * qty, "Opening Stock")`. -/
def addOpeningStock (s : AnalyzerState) (items : List OpeningStockItem) :
    AnalyzerState :=
  items.foldl
    (fun st it =>
      addStock st it.product it.location it.date it.qty
        (it.cost_per_unit * (it.qty : Rat)) "Opening Stock") s

/-- The documented pipeline: optional opening stock first, then the sorted
movement stream. -/
def runWithOpeningStock (opening : List OpeningStockItem)
    (events : List MovementEvent) : AnalyzerState :=
  events.foldl processEvent (addOpeningStock initialState opening)

/-!
Aging categorization (`get_aging_summary_by_categories`, app.py
lines 394-429). The code uses `datetime.now()` as the reference instant;
it is made an explicit `current_date` parameter here.
-/

/-- The `item_info` dict built at app.py lines 412-418. -/
structure AgingItemInfo where
  product : String
  location : String
  days_on_shelf : Int
  cost : Rat
  purchase_date : Int
deriving DecidableEq, Repr

/-- The four fixed buckets of `aging_categories` (app.py lines 399-404). -/
structure AgingCategories where
  fresh : List AgingItemInfo
  medium : List AgingItemInfo
  aged : List AgingItemInfo
  very_aged : List AgingItemInfo
deriving DecidableEq, Repr

/-- The `if/elif/else` chain of app.py lines 420-427: append the item to
the single bucket selected by `days_on_shelf`. -/
def addToCategory (cats : AgingCategories) (info : AgingItemInfo) :
    AgingCategories :=
  if info.days_on_shelf ≤ 7 then
    { cats with fresh := cats.fresh ++ [info] }
  else if info.days_on_shelf ≤ 30 then
    { cats with medium := cats.medium ++ [info] }
  else if info.days_on_shelf ≤ 90 then
    { cats with aged := cats.aged ++ [info] }
  else
    { cats with very_aged := cats.very_aged ++ [info] }

/-- The inner loop over one key's deque (app.py lines 409-427). -/
def categorizeQueue (current_date : Int) (product location : String)
    (q : List StockItem) (cats : AgingCategories) : AgingCategories :=
  q.foldl
    (fun acc item =>
      addToCategory acc
        ⟨product, location, daysBetween current_date item.date,
          item.cost, item.date⟩) cats

/-- `get_aging_summary_by_categories` (app.py lines 394-429): iterate every
key's deque, classifying each remaining unit into exactly one bucket. -/
def getAgingSummaryByCategories (current_date : Int)
    (stock : List (LedgerKey × List StockItem)) : AgingCategories :=
  stock.foldl
    (fun cats entry =>
      categorizeQueue current_date entry.1.1 entry.1.2 entry.2 cats)
    ⟨[], [], [], []⟩

/-- Total remaining quantity of the ledger: with the per-unit deque
representation this is the sum of all queue lengths. -/
def totalRemainingQuantity (stock : List (LedgerKey × List StockItem)) : Nat :=
  (stock.map (fun entry => entry.2.length)).sum

/-!
Analytics aggregation (`generate_analytics`, app.py lines 157-221).
The pandas statistics are floats; they are modelled as exact rationals.
The sample standard deviation is modelled by its square, the sample
variance (the square root of a rational is irrational in general), with
`none` standing for pandas' NaN when fewer than two values exist; the
presentational `.round(2)` of the code is applied to the exact rational
fields (half-to-even, numpy's rounding rule) and omitted on the variance
field, whose rounding happens on the irrational root in the code.
-/

/-- Order-preserving insertion used by the sorts below. -/
def insertSortedBy {α : Type} (le : α → α → Bool) (x : α) :
    List α → List α
  | [] => [x]
  | y :: ys => if le x y then x :: y :: ys else y :: insertSortedBy le x ys

/-- Insertion sort by a boolean comparator. -/
def sortListBy {α : Type} (le : α → α → Bool) (xs : List α) : List α :=
  xs.foldr (insertSortedBy le) []

/-- Mean of an integer sample as a rational (pandas `.mean()`). -/
def intMean (xs : List Int) : Rat :=
  ((xs.sum : Int) : Rat) / (xs.length : Rat)

/-- Mean of a rational sample (pandas `.mean()` on the cost column). -/
def ratMean (xs : List Rat) : Rat :=
  xs.sum / (xs.length : Rat)

/-- pandas `.median()`: middle of the sorted sample, or the average of the
two middles for an even-sized sample. -/
def medianOf (xs : List Int) : Rat :=
  let s := sortListBy (fun a b => decide (a ≤ b)) xs
  let n := s.length
  if n % 2 = 1 then ((s.getD (n / 2) 0 : Int) : Rat)
  else (((s.getD (n / 2 - 1) 0 : Int) : Rat) + ((s.getD (n / 2) 0 : Int) : Rat)) / 2

/-- pandas `.min()` (only applied to nonempty samples). -/
def minOf (xs : List Int) : Int :=
  match xs with
  | [] => 0
  | x :: rest => rest.foldl min x

/-- pandas `.max()` (only applied to nonempty samples). -/
def maxOf (xs : List Int) : Int :=
  match xs with
  | [] => 0
  | x :: rest => rest.foldl max x

/-- Square of pandas' sample standard deviation (`ddof = 1`): the sample
variance with denominator `n - 1`; `none` models NaN for `n < 2`. -/
def sampleVariance (xs : List Int) : Option Rat :=
  let n := xs.length
  if n ≤ 1 then none
  else
    let m := intMean xs
    some ((xs.map (fun x => ((x : Rat) - m) ^ 2)).sum / ((n : Rat) - 1))

/-- Round to nearest integer, ties to even (numpy's rule). -/
def roundHalfEven (x : Rat) : Int :=
  let f : Int := x.floor
  let frac : Rat := x - (f : Rat)
  if frac < 1 / 2 then f
  else if 1 / 2 < frac then f + 1
  else if f % 2 = 0 then f else f + 1

/-- `.round(2)` on an exact rational. -/
def round2 (x : Rat) : Rat :=
  ((roundHalfEven (x * 100) : Int) : Rat) / 100

/-- Hinnant's civil-from-days conversion: proleptic Gregorian
(year, month, day) of a day count since the Unix epoch; this is the
calendar Python's `datetime` uses. -/
def civilFromDays (z0 : Int) : Int × Int × Int :=
  let z := z0 + 719468
  let era : Int := Int.fdiv z 146097
  let doe : Int := z - era * 146097
  let yoe : Int :=
    Int.fdiv (doe - Int.fdiv doe 1460 + Int.fdiv doe 36524 -
      Int.fdiv doe 146096) 365
  let y : Int := yoe + era * 400
  let doy : Int := doe - (365 * yoe + Int.fdiv yoe 4 - Int.fdiv yoe 100)
  let mp : Int := Int.fdiv (5 * doy + 2) 153
  let d : Int := doy - Int.fdiv (153 * mp + 2) 5 + 1
  let m : Int := if mp < 10 then mp + 3 else mp - 9
  (if m ≤ 2 then y + 1 else y, m, d)

/-- `sale_date.dt.to_period('M')`: the (year, month) of an instant. -/
def monthOf (t : Int) : Int × Int :=
  let c := civilFromDays (Int.fdiv t 86400)
  (c.1, c.2.1)

/-- `analytics['overall']` (app.py lines 168-175 and 188-195). -/
structure OverallStats where
  total_units_sold : Nat
  average_shelf_time_days : Rat
  median_shelf_time_days : Rat
  min_shelf_time_days : Int
  max_shelf_time_days : Int
  std_shelf_time_days : Option Rat
deriving DecidableEq, Repr

/-- One row of the `by_product` / `by_location` rollups
(app.py lines 198-207). -/
structure GroupStats where
  group_key : String
  count : Nat
  mean_days : Rat
  median_days : Rat
  min_days : Int
  max_days : Int
  var_days : Option Rat
  mean_unit_cost : Rat
deriving DecidableEq, Repr

/-- One row of `monthly_trends` (app.py lines 215-219). -/
structure MonthlyTrendRow where
  year : Int
  month : Int
  count : Nat
  mean_days : Rat
  total_unit_cost : Rat
deriving DecidableEq, Repr

/-- The analytics dictionary returned by `generate_analytics`. -/
structure Analytics where
  overall : OverallStats
  by_product : List GroupStats
  by_location : List GroupStats
  fast_moving_products : List (String × Rat)
  slow_moving_products : List (String × Rat)
  monthly_trends : List MonthlyTrendRow
deriving DecidableEq, Repr

/-- `groupby(f).agg(...)` over the records, group keys in ascending order
as pandas sorts them. -/
def groupRollup (records : List ShelfTimeRecord)
    (f : ShelfTimeRecord → String) : List GroupStats :=
  let keys := sortListBy (fun a b => decide (a ≤ b)) (records.map f).dedup
  keys.map (fun k =>
    let rs := records.filter (fun r => f r = k)
    let days := rs.map (fun r => r.shelf_time_days)
    ⟨k, rs.length, round2 (intMean days), round2 (medianOf days),
      minOf days, maxOf days, sampleVariance days,
      round2 (ratMean (rs.map (fun r => r.unit_cost)))⟩)

/-- `groupby('product')['shelf_time_days'].mean().sort_values()`
(app.py line 210): per-product mean shelf time, ascending by mean. -/
def productAvgShelfTime (records : List ShelfTimeRecord) :
    List (String × Rat) :=
  let keys := sortListBy (fun a b => decide (a ≤ b))
    (records.map (fun r => r.product)).dedup
  let pairs := keys.map (fun k =>
    (k, intMean ((records.filter (fun r => r.product = k)).map
      (fun r => r.shelf_time_days))))
  sortListBy (fun a b => decide (a.2 ≤ b.2)) pairs

/-- `monthly_trends` (app.py lines 215-219): group by the calendar month of
`sale_date`, chronologically ordered as pandas orders period keys. -/
def monthlyTrends (records : List ShelfTimeRecord) : List MonthlyTrendRow :=
  let keys := sortListBy
    (fun a b => decide (a.1 < b.1 ∨ (a.1 = b.1 ∧ a.2 ≤ b.2)))
    ((records.map (fun r => monthOf r.sale_date)).dedup)
  keys.map (fun ym =>
    let rs := records.filter (fun r => monthOf r.sale_date = ym)
    let days := rs.map (fun r => r.shelf_time_days)
    ⟨ym.1, ym.2, rs.length, round2 (intMean days),
      round2 ((rs.map (fun r => r.unit_cost)).sum)⟩)

/-- `generate_analytics` (app.py lines 157-221): the empty-record case
returns the explicit all-zero structure of lines 167-181 together with an
empty dataframe; otherwise the statistics are computed from the records,
which are also returned as the dataframe. -/
def generateAnalytics (records : List ShelfTimeRecord) :
    Analytics × List ShelfTimeRecord :=
  if records.isEmpty then
    (⟨⟨0, 0, 0, 0, 0, some 0⟩, [], [], [], [], []⟩, [])
  else
    let days := records.map (fun r => r.shelf_time_days)
    let avg := productAvgShelfTime records
    (⟨⟨records.length, intMean days, medianOf days, minOf days,
        maxOf days, sampleVariance days⟩,
      groupRollup records (fun r => r.product),
      groupRollup records (fun r => r.location),
      avg.take 10,
      avg.drop (avg.length - 10),
      monthlyTrends records⟩, records)

/-- The cost actually used by `process_inventory_movements`:
`abs(row['Cost']) if pd.notna(row['Cost']) else 0`. -/
def eventCost (e : MovementEvent) : Rat :=
  match e.cost with
  | some c => |c|
  | none => 0

/-- Number of emitted records attributed to key `k`: the matched quantity
so far for that key (one record per matched unit). -/
def matchedCount (s : AnalyzerState) (k : LedgerKey) : Nat :=
  (s.shelf_time_records.filter
    (fun r => decide (r.product = k.1 ∧ r.location = k.2))).length

/-- Total inbound quantity for key `k` in an event list. -/
def inboundTotal (events : List MovementEvent) (k : LedgerKey) : Nat :=
  match events with
  | [] => 0
  | e :: rest =>
      (if e.product = k.1 ∧ e.location = k.2 ∧ e.qty > 0 then e.qty.toNat
        else 0) + inboundTotal rest k

/-- Total units held across the four buckets. -/
def catsTotal (cats : AgingCategories) : Nat :=
  cats.fresh.length + cats.medium.length + cats.aged.length +
    cats.very_aged.length

/-- Each bucket holds only items in its (classifier-determined) age range:
the four ranges `≤ 7`, `8..30`, `31..90`, `> 90` are pairwise disjoint and
cover every integer age. -/
def catsRanged (cats : AgingCategories) : Prop :=
  (∀ i ∈ cats.fresh, i.days_on_shelf ≤ 7) ∧
  (∀ i ∈ cats.medium, 7 < i.days_on_shelf ∧ i.days_on_shelf ≤ 30) ∧
  (∀ i ∈ cats.aged, 30 < i.days_on_shelf ∧ i.days_on_shelf ≤ 90) ∧
  (∀ i ∈ cats.very_aged, 90 < i.days_on_shelf)

/-!
Concrete inputs used by the witnesses.
-/

/-- A queue with an older and a newer unit for key ("A", "L1"). -/
def demoState : AnalyzerState :=
  ⟨[(("A", "L1"), [⟨0, 3, "buy1"⟩, ⟨86400, 4, "buy2"⟩])], [], []⟩

/-- A one-unit sale two days in. -/
def demoSale : MovementEvent := ⟨"A", "L1", -1, 172800, none, "sale"⟩

/-- A five-unit sale against the two-unit queue. -/
def demoOversell : MovementEvent := ⟨"A", "L1", -5, 172800, none, "sale"⟩

/-- A zero-quantity adjustment. -/
def demoZero : MovementEvent := ⟨"B", "L2", 0, 999, some 4, "noop"⟩

/-- A sorted two-event stream: inbound then outbound a day later. -/
def demoSorted : List MovementEvent :=
  [⟨"A", "L1", 2, 0, some 10, "buy"⟩, ⟨"A", "L1", -1, 86400, none, "sale"⟩]

/-- A ledger whose only unit is dated ten days in the future. -/
def demoFutureState : AnalyzerState :=
  ⟨[(("P", "L"), [⟨864000, 5, "late"⟩])], [], []⟩

/-- A sale dated before the future-dated unit above. -/
def demoEarlySale : MovementEvent := ⟨"P", "L", -1, 0, none, "sale"⟩

/-!
Basic lemmas about the ledger representation.
-/

/-- Reading back the key just written returns the written queue. -/
theorem getQueue_setQueue_self (s : List (LedgerKey × List StockItem))
    (k : LedgerKey) (q : List StockItem) :
    getQueue (setQueue s k q) k = q := by
  induction s with
  | nil => simp [setQueue, getQueue]
  | cons hd tl ih =>
      obtain ⟨k', q'⟩ := hd
      by_cases h : k' = k
      · simp [setQueue, h, getQueue]
      · simp [setQueue, h, getQueue, ih]

/-- Writing one key leaves every other key's queue unchanged. -/
theorem getQueue_setQueue_ne (s : List (LedgerKey × List StockItem))
    (k k' : LedgerKey) (q : List StockItem) (h : k' ≠ k) :
    getQueue (setQueue s k q) k' = getQueue s k' := by
  have h' : ¬ k = k' := fun hh => h hh.symm
  induction s with
  | nil => simp [setQueue, getQueue, h']
  | cons hd tl ih =>
      obtain ⟨k₀, q₀⟩ := hd
      by_cases hk : k₀ = k
      · subst hk
        simp [setQueue, getQueue, h']
      · simp only [setQueue, if_neg hk, getQueue]
        by_cases hk' : k₀ = k'
        · simp [hk']
        · simp [hk', ih]

/-- The FIFO pop loop characterized: the matched snapshots are exactly the
first `n` queue entries in queue order, and the remaining queue is what is
left after dropping them. -/
theorem removeLoop_spec (product location : String) (date : Int)
    (reason : String) (n : Nat) (q : List StockItem) :
    removeLoop product location date reason n q =
      (q.drop n, (q.take n).map (mkShelfRecord product location date reason)) := by
  induction n generalizing q with
  | zero => simp [removeLoop]
  | succ m ih =>
      cases q with
      | nil => simp [removeLoop]
      | cons item rest => simp [removeLoop, ih]

/-- An inbound event is exactly an `_add_stock` call. -/
theorem processEvent_inbound (s : AnalyzerState) (e : MovementEvent)
    (h : e.qty > 0) :
    processEvent s e =
      addStock s e.product e.location e.date e.qty (eventCost e) e.reason := by
  simp [processEvent, if_pos h, eventCost]

/-- An outbound event is exactly a `_remove_stock` call on `abs(qty)`. -/
theorem processEvent_outbound (s : AnalyzerState) (e : MovementEvent)
    (h : e.qty < 0) :
    processEvent s e =
      removeStock s e.product e.location e.date |e.qty| e.reason := by
  have h1 : ¬ e.qty > 0 := by omega
  simp [processEvent, if_neg h1, if_pos h]

/-- `abs(qty).toNat` is `natAbs`. -/
theorem abs_toNat_natAbs (n : Int) : |n|.toNat = n.natAbs := by
  rw [Int.abs_eq_natAbs]
  exact Int.toNat_natCast _

/-- Queue after an outbound event: the first `abs(qty)` units are dropped
from the head. -/
theorem outbound_queue (s : AnalyzerState) (e : MovementEvent)
    (h : e.qty < 0) :
    getQueue (processEvent s e).current_stock (e.product, e.location) =
      (getQueue s.current_stock (e.product, e.location)).drop e.qty.natAbs := by
  rw [processEvent_outbound s e h]
  simp [removeStock, removeLoop_spec, abs_toNat_natAbs, getQueue_setQueue_self]

/-- Records after an outbound event: one record per matched unit, taken
from the head of the queue in queue order. -/
theorem outbound_records (s : AnalyzerState) (e : MovementEvent)
    (h : e.qty < 0) :
    (processEvent s e).shelf_time_records =
      s.shelf_time_records ++
        ((getQueue s.current_stock (e.product, e.location)).take e.qty.natAbs).map
          (mkShelfRecord e.product e.location e.date e.reason) := by
  rw [processEvent_outbound s e h]
  simp [removeStock, removeLoop_spec, abs_toNat_natAbs]

/-- Warnings after an outbound event. -/
theorem outbound_warnings (s : AnalyzerState) (e : MovementEvent)
    (h : e.qty < 0) :
    (processEvent s e).warnings =
      if ((min e.qty.natAbs
            (getQueue s.current_stock (e.product, e.location)).length : Nat) : Int)
          < |e.qty| then
        s.warnings ++ [⟨e.product, e.location, |e.qty|,
          (min e.qty.natAbs
            (getQueue s.current_stock (e.product, e.location)).length : Nat)⟩]
      else s.warnings := by
  rw [processEvent_outbound s e h]
  simp [removeStock, abs_toNat_natAbs]

/-- Queue after an inbound event: `qty` fresh units appended at the tail. -/
theorem inbound_queue (s : AnalyzerState) (e : MovementEvent)
    (h : e.qty > 0) :
    getQueue (processEvent s e).current_stock (e.product, e.location) =
      getQueue s.current_stock (e.product, e.location) ++
        List.replicate e.qty.toNat
          ⟨e.date, eventCost e / (e.qty : Rat), e.reason⟩ := by
  rw [processEvent_inbound s e h]
  simp [addStock, if_pos h, getQueue_setQueue_self]

/-- Inbound events emit no records and no warnings. -/
theorem inbound_records_warnings (s : AnalyzerState) (e : MovementEvent)
    (h : e.qty > 0) :
    (processEvent s e).shelf_time_records = s.shelf_time_records ∧
    (processEvent s e).warnings = s.warnings := by
  rw [processEvent_inbound s e h]
  simp [addStock]

/-- Frame lemma: an event never changes the queue of a different key. -/
theorem processEvent_queue_frame (s : AnalyzerState) (e : MovementEvent)
    (k : LedgerKey) (h : k ≠ (e.product, e.location)) :
    getQueue (processEvent s e).current_stock k = getQueue s.current_stock k := by
  by_cases h1 : e.qty > 0
  · rw [processEvent_inbound s e h1]
    simp [addStock, getQueue_setQueue_ne _ _ _ _ h]
  · by_cases h2 : e.qty < 0
    · rw [processEvent_outbound s e h2]
      simp [removeStock, getQueue_setQueue_ne _ _ _ _ h]
    · have h3 : e.qty = 0 := by omega
      simp [processEvent, h1, h2]

/-!
Conservation machinery.
-/

/-- Records produced by one outbound match all carry the event's own key. -/
theorem filter_mkShelfRecord_same (l : List StockItem) (p loc : String)
    (d : Int) (r : String) :
    (l.map (mkShelfRecord p loc d r)).filter
      (fun rec => decide (rec.product = p ∧ rec.location = loc)) =
      l.map (mkShelfRecord p loc d r) := by
  induction l with
  | nil => simp
  | cons x xs ih => simp [mkShelfRecord, ih]

/-- Records produced by one outbound match never carry a different key. -/
theorem filter_mkShelfRecord_ne (l : List StockItem) (p loc : String)
    (d : Int) (r : String) (k : LedgerKey) (h : k ≠ (p, loc)) :
    (l.map (mkShelfRecord p loc d r)).filter
      (fun rec => decide (rec.product = k.1 ∧ rec.location = k.2)) = [] := by
  have h' : ¬ (p = k.1 ∧ loc = k.2) := by
    rintro ⟨h1, h2⟩
    apply h
    obtain ⟨k1, k2⟩ := k
    simp only at h1 h2
    rw [h1, h2]
  induction l with
  | nil => simp
  | cons x xs ih =>
      simp [mkShelfRecord, ih, h']
      exact fun a _ h1 h2 => h' ⟨h1, h2⟩

/-- One-event conservation: the key's queue length plus its matched count
changes exactly by the inbound quantity of the event (when the event is an
inbound at that key) and otherwise stays put. -/
theorem step_conservation (s : AnalyzerState) (e : MovementEvent)
    (k : LedgerKey) :
    (getQueue (processEvent s e).current_stock k).length +
      matchedCount (processEvent s e) k =
    (getQueue s.current_stock k).length + matchedCount s k +
      (if e.product = k.1 ∧ e.location = k.2 ∧ e.qty > 0 then e.qty.toNat
        else 0) := by
  by_cases hk : k = (e.product, e.location)
  · subst hk
    by_cases h1 : e.qty > 0
    · rw [inbound_queue s e h1]
      have hr := (inbound_records_warnings s e h1).1
      simp [matchedCount, hr, h1]
      omega
    · by_cases h2 : e.qty < 0
      · rw [outbound_queue s e h2]
        have hr := outbound_records s e h2
        have hq : ¬ e.qty > 0 := by omega
        simp only [matchedCount, hr, List.filter_append, List.length_append,
          List.length_drop, filter_mkShelfRecord_same, List.length_map,
          List.length_take]
        simp only [hq, and_false, if_false]
        omega
      · have h3 : e.qty = 0 := by omega
        simp [processEvent, h1, h2]
  · rw [processEvent_queue_frame s e k hk]
    have hcond : ¬ (e.product = k.1 ∧ e.location = k.2 ∧ e.qty > 0) := by
      rintro ⟨h1, h2, _⟩
      apply hk
      obtain ⟨k1, k2⟩ := k
      simp only at h1 h2
      rw [← h1, ← h2]
    by_cases h1 : e.qty > 0
    · have hr := (inbound_records_warnings s e h1).1
      simp [matchedCount, hr, hcond]
    · by_cases h2 : e.qty < 0
      · have hr := outbound_records s e h2
        simp only [matchedCount, hr, List.filter_append, List.length_append,
          filter_mkShelfRecord_ne _ _ _ _ _ _ hk, List.length_nil, hcond,
          if_false]
        omega
      · have h3 : e.qty = 0 := by omega
        simp [processEvent, h1, h2, hcond]

/-- Conservation over a whole fold, from an arbitrary starting state. -/
theorem conservation_aux (events : List MovementEvent) (s : AnalyzerState)
    (k : LedgerKey) :
    (getQueue (events.foldl processEvent s).current_stock k).length +
      matchedCount (events.foldl processEvent s) k =
    (getQueue s.current_stock k).length + matchedCount s k +
      inboundTotal events k := by
  induction events generalizing s with
  | nil => simp [inboundTotal]
  | cons e rest ih =>
      simp only [List.foldl_cons, inboundTotal]
      rw [ih (processEvent s e)]
      have hstep := step_conservation s e k
      omega

/-!
Non-negativity of shelf times under timestamp-sorted processing.
-/

/-- The invariant fold: if every queued unit is dated no later than every
upcoming event, and the events are in non-decreasing timestamp order, then
every record ever emitted has a non-negative shelf time. -/
theorem shelf_nonneg_aux (events : List MovementEvent) (s : AnalyzerState)
    (hs : ∀ k : LedgerKey, ∀ it ∈ getQueue s.current_stock k,
      ∀ e ∈ events, it.date ≤ e.date)
    (hr : ∀ r ∈ s.shelf_time_records, 0 ≤ r.shelf_time_days)
    (hsorted : events.Pairwise (fun a b => a.date ≤ b.date)) :
    ∀ r ∈ (events.foldl processEvent s).shelf_time_records,
      0 ≤ r.shelf_time_days := by
  induction events generalizing s with
  | nil => simpa using hr
  | cons e rest ih =>
      rw [List.pairwise_cons] at hsorted
      obtain ⟨he, hrest⟩ := hsorted
      simp only [List.foldl_cons]
      apply ih (processEvent s e) ?_ ?_ hrest
      · intro k it hit e' he'
        by_cases hk : k = (e.product, e.location)
        · subst hk
          by_cases h1 : e.qty > 0
          · rw [inbound_queue s e h1] at hit
            rcases List.mem_append.mp hit with h | h
            · exact hs _ it h e' (by simp [he'])
            · rw [List.eq_of_mem_replicate h]
              exact he e' he'
          · by_cases h2 : e.qty < 0
            · rw [outbound_queue s e h2] at hit
              exact hs _ it (List.mem_of_mem_drop hit) e' (by simp [he'])
            · have h3 : ¬ e.qty < 0 := h2
              simp [processEvent, h1, h3] at hit
              exact hs _ it hit e' (by simp [he'])
        · rw [processEvent_queue_frame s e k hk] at hit
          exact hs _ it hit e' (by simp [he'])
      · intro r hrmem
        by_cases h1 : e.qty > 0
        · rw [(inbound_records_warnings s e h1).1] at hrmem
          exact hr r hrmem
        · by_cases h2 : e.qty < 0
          · rw [outbound_records s e h2] at hrmem
            rcases List.mem_append.mp hrmem with h | h
            · exact hr r h
            · obtain ⟨it, hitmem, hrec⟩ := List.mem_map.mp h
              have hitq : it ∈ getQueue s.current_stock (e.product, e.location) :=
                List.mem_of_mem_take hitmem
              have hd : it.date ≤ e.date := hs _ it hitq e (by simp)
              rw [← hrec]
              simp only [mkShelfRecord, daysBetween]
              apply Int.fdiv_nonneg
              · exact sub_nonneg.mpr hd
              · norm_num
          · simp [processEvent, h1, h2] at hrmem
            exact hr r hrmem

/-!
Aging-bucket machinery.
-/

/-- Classifying one unit grows exactly one bucket, by exactly one item. -/
theorem catsTotal_addToCategory (cats : AgingCategories)
    (info : AgingItemInfo) :
    catsTotal (addToCategory cats info) = catsTotal cats + 1 := by
  unfold addToCategory catsTotal
  split_ifs <;> simp <;> omega

/-- Classifying preserves the range invariant. -/
theorem catsRanged_addToCategory (cats : AgingCategories)
    (info : AgingItemInfo) (h : catsRanged cats) :
    catsRanged (addToCategory cats info) := by
  obtain ⟨hf, hm, ha, hv⟩ := h
  unfold addToCategory
  split_ifs with h1 h2 h3
  · refine ⟨?_, hm, ha, hv⟩
    intro i hi
    rcases List.mem_append.mp hi with h | h
    · exact hf i h
    · rw [List.mem_singleton.mp h]; exact h1
  · refine ⟨hf, ?_, ha, hv⟩
    intro i hi
    rcases List.mem_append.mp hi with h | h
    · exact hm i h
    · rw [List.mem_singleton.mp h]; exact ⟨by omega, h2⟩
  · refine ⟨hf, hm, ?_, hv⟩
    intro i hi
    rcases List.mem_append.mp hi with h | h
    · exact ha i h
    · rw [List.mem_singleton.mp h]; exact ⟨by omega, h3⟩
  · refine ⟨hf, hm, ha, ?_⟩
    intro i hi
    rcases List.mem_append.mp hi with h | h
    · exact hv i h
    · rw [List.mem_singleton.mp h]; omega

/-- Walking one queue grows the buckets by exactly the queue length. -/
theorem catsTotal_categorizeQueue (now : Int) (p l : String)
    (q : List StockItem) (cats : AgingCategories) :
    catsTotal (categorizeQueue now p l q cats) = catsTotal cats + q.length := by
  induction q generalizing cats with
  | nil => simp [categorizeQueue]
  | cons x xs ih =>
      simp only [categorizeQueue, List.foldl_cons] at ih ⊢
      rw [ih, catsTotal_addToCategory]
      simp only [List.length_cons]
      omega

/-- Walking one queue preserves the range invariant. -/
theorem catsRanged_categorizeQueue (now : Int) (p l : String)
    (q : List StockItem) (cats : AgingCategories) (h : catsRanged cats) :
    catsRanged (categorizeQueue now p l q cats) := by
  induction q generalizing cats with
  | nil => simpa [categorizeQueue] using h
  | cons x xs ih =>
      simp only [categorizeQueue, List.foldl_cons] at ih ⊢
      exact ih _ (catsRanged_addToCategory _ _ h)

/-- Walking the whole ledger grows the buckets by the total quantity. -/
theorem catsTotal_agingFold (now : Int)
    (stock : List (LedgerKey × List StockItem)) (cats : AgingCategories) :
    catsTotal (stock.foldl
      (fun cats entry => categorizeQueue now entry.1.1 entry.1.2 entry.2 cats)
      cats) = catsTotal cats + totalRemainingQuantity stock := by
  induction stock generalizing cats with
  | nil => simp [totalRemainingQuantity]
  | cons entry rest ih =>
      simp only [List.foldl_cons]
      rw [ih, catsTotal_categorizeQueue]
      simp [totalRemainingQuantity]
      omega

/-- Walking the whole ledger preserves the range invariant. -/
theorem catsRanged_agingFold (now : Int)
    (stock : List (LedgerKey × List StockItem)) (cats : AgingCategories)
    (h : catsRanged cats) :
    catsRanged (stock.foldl
      (fun cats entry => categorizeQueue now entry.1.1 entry.1.2 entry.2 cats)
      cats) := by
  induction stock generalizing cats with
  | nil => simpa using h
  | cons entry rest ih =>
      simp only [List.foldl_cons]
      exact ih _ (catsRanged_categorizeQueue _ _ _ _ _ h)

/-- The fresh bucket only ever grows while classifying. -/
theorem fresh_mono_addToCategory (cats : AgingCategories)
    (info x : AgingItemInfo) (h : x ∈ cats.fresh) :
    x ∈ (addToCategory cats info).fresh := by
  unfold addToCategory
  split_ifs <;> simp [h]

/-- The fresh bucket only ever grows while walking a queue. -/
theorem fresh_mono_categorizeQueue (now : Int) (p l : String)
    (q : List StockItem) (cats : AgingCategories) (x : AgingItemInfo)
    (h : x ∈ cats.fresh) : x ∈ (categorizeQueue now p l q cats).fresh := by
  induction q generalizing cats with
  | nil => simpa [categorizeQueue] using h
  | cons y ys ih =>
      simp only [categorizeQueue, List.foldl_cons] at ih ⊢
      exact ih _ (fresh_mono_addToCategory _ _ _ h)

/-- A queued unit whose computed age is at most 7 days lands in the fresh
bucket when its queue is walked. -/
theorem fresh_mem_categorizeQueue (now : Int) (p l : String)
    (q : List StockItem) (cats : AgingCategories) (it : StockItem)
    (hit : it ∈ q) (hd : daysBetween now it.date ≤ 7) :
    (⟨p, l, daysBetween now it.date, it.cost, it.date⟩ : AgingItemInfo) ∈
      (categorizeQueue now p l q cats).fresh := by
  induction q generalizing cats with
  | nil => cases hit
  | cons x xs ih =>
      simp only [categorizeQueue, List.foldl_cons] at ih ⊢
      rcases List.mem_cons.mp hit with heq | hx
      · subst heq
        apply fresh_mono_categorizeQueue
        unfold addToCategory
        rw [if_pos hd]
        simp
      · exact ih _ hx

/-- The fresh bucket only ever grows while walking the whole ledger. -/
theorem fresh_mono_agingFold (now : Int)
    (stock : List (LedgerKey × List StockItem)) (cats : AgingCategories)
    (x : AgingItemInfo) (h : x ∈ cats.fresh) :
    x ∈ (stock.foldl
      (fun cats entry => categorizeQueue now entry.1.1 entry.1.2 entry.2 cats)
      cats).fresh := by
  induction stock generalizing cats with
  | nil => simpa using h
  | cons entry rest ih =>
      simp only [List.foldl_cons]
      exact ih _ (fresh_mono_categorizeQueue _ _ _ _ _ _ h)

/-- A stocked unit whose computed age is at most 7 days ends up in the
fresh bucket of the full fold. -/
theorem fresh_mem_agingFold (now : Int)
    (stock : List (LedgerKey × List StockItem)) (cats : AgingCategories)
    (k : LedgerKey) (q : List StockItem) (it : StockItem)
    (hmem : (k, q) ∈ stock) (hit : it ∈ q)
    (hd : daysBetween now it.date ≤ 7) :
    (⟨k.1, k.2, daysBetween now it.date, it.cost, it.date⟩ : AgingItemInfo) ∈
      (stock.foldl
        (fun cats entry => categorizeQueue now entry.1.1 entry.1.2 entry.2 cats)
        cats).fresh := by
  induction stock generalizing cats with
  | nil => cases hmem
  | cons entry rest ih =>
      simp only [List.foldl_cons]
      rcases List.mem_cons.mp hmem with heq | hmem'
      · rw [← heq]
        apply fresh_mono_agingFold
        exact fresh_mem_categorizeQueue now k.1 k.2 q cats it hit hd
      · exact ih _ hmem'

/-!
The claims.
-/

/-- C1: FIFO matching order — when an outbound event is processed, the
matched units are exactly the first `abs(qty)` entries of that key's queue
in enqueue order (every unit of an earlier-enqueued batch before any unit
of a later one), and the queue keeps the remaining entries. -/
theorem C1_fifo_matching_order (s : AnalyzerState) (e : MovementEvent)
    (h : e.qty < 0) :
    getQueue (processEvent s e).current_stock (e.product, e.location) =
      (getQueue s.current_stock (e.product, e.location)).drop e.qty.natAbs ∧
    (processEvent s e).shelf_time_records =
      s.shelf_time_records ++
        ((getQueue s.current_stock (e.product, e.location)).take
          e.qty.natAbs).map
          (mkShelfRecord e.product e.location e.date e.reason) :=
  ⟨outbound_queue s e h, outbound_records s e h⟩

/-- C1 witness: a concrete one-unit sale against a two-lot queue. -/
theorem C1_witness :
    demoSale.qty < 0 ∧
    (getQueue (processEvent demoState demoSale).current_stock
        (demoSale.product, demoSale.location) =
      (getQueue demoState.current_stock
        (demoSale.product, demoSale.location)).drop demoSale.qty.natAbs ∧
    (processEvent demoState demoSale).shelf_time_records =
      demoState.shelf_time_records ++
        ((getQueue demoState.current_stock
          (demoSale.product, demoSale.location)).take demoSale.qty.natAbs).map
          (mkShelfRecord demoSale.product demoSale.location demoSale.date
            demoSale.reason)) :=
  ⟨by decide, C1_fifo_matching_order demoState demoSale (by decide)⟩

/-- C2: conservation of quantity — after any processed prefix, each key's
remaining queue quantity equals its inbound total minus its matched total,
exactly. -/
theorem C2_conservation_of_quantity (events : List MovementEvent)
    (k : LedgerKey) :
    ((getQueue (processMovements events).current_stock k).length : Int) =
      (inboundTotal events k : Int) -
        (matchedCount (processMovements events) k : Int) := by
  have h := conservation_aux events initialState k
  have h1 : getQueue initialState.current_stock k = [] := rfl
  have h2 : matchedCount initialState k = 0 := rfl
  rw [h1, h2] at h
  simp only [List.length_nil] at h
  simp only [processMovements]
  omega

/-- C3: oversell is non-fatal and never drives stock negative — an
outbound event requesting more than the key's available quantity emits one
record per available unit, leaves the key's queue empty, and reports the
requested and matched quantities in a shortfall warning. -/
theorem C3_oversell_nonfatal (s : AnalyzerState) (e : MovementEvent)
    (h1 : e.qty < 0)
    (h2 : (getQueue s.current_stock (e.product, e.location)).length <
      e.qty.natAbs) :
    getQueue (processEvent s e).current_stock (e.product, e.location) = [] ∧
    (processEvent s e).shelf_time_records.length =
      s.shelf_time_records.length +
        (getQueue s.current_stock (e.product, e.location)).length ∧
    (processEvent s e).warnings = s.warnings ++
      [⟨e.product, e.location, |e.qty|,
        ((getQueue s.current_stock (e.product, e.location)).length : Int)⟩] := by
  refine ⟨?_, ?_, ?_⟩
  · rw [outbound_queue s e h1]
    exact List.drop_eq_nil_of_le (by omega)
  · rw [outbound_records s e h1]
    simp only [List.length_append, List.length_map, List.length_take]
    omega
  · rw [outbound_warnings s e h1]
    have habs : (e.qty.natAbs : Int) = |e.qty| := (Int.abs_eq_natAbs e.qty).symm
    have hmin : min e.qty.natAbs
        (getQueue s.current_stock (e.product, e.location)).length =
        (getQueue s.current_stock (e.product, e.location)).length := by omega
    rw [hmin, if_pos (by omega)]

/-- C3 witness: selling five against a queue of two. -/
theorem C3_witness :
    (demoOversell.qty < 0 ∧
      (getQueue demoState.current_stock
        (demoOversell.product, demoOversell.location)).length <
        demoOversell.qty.natAbs) ∧
    (getQueue (processEvent demoState demoOversell).current_stock
        (demoOversell.product, demoOversell.location) = [] ∧
    (processEvent demoState demoOversell).shelf_time_records.length =
      demoState.shelf_time_records.length +
        (getQueue demoState.current_stock
          (demoOversell.product, demoOversell.location)).length ∧
    (processEvent demoState demoOversell).warnings = demoState.warnings ++
      [⟨demoOversell.product, demoOversell.location, |demoOversell.qty|,
        ((getQueue demoState.current_stock
          (demoOversell.product, demoOversell.location)).length : Int)⟩]) :=
  ⟨⟨by decide, by decide⟩,
    C3_oversell_nonfatal demoState demoOversell (by decide) (by decide)⟩

/-- C4 (amended): shelf time is non-negative for every emitted record
PROVIDED the processed stream is in non-decreasing timestamp order — the
matching loop performs no timestamp comparison, so the bound comes solely
from processing order, not from a `timestamp <= sold_at` check. -/
theorem C4_shelf_time_nonneg_of_sorted (events : List MovementEvent)
    (hsorted : events.Pairwise (fun a b => a.date ≤ b.date)) :
    ∀ r ∈ (processMovements events).shelf_time_records,
      0 ≤ r.shelf_time_days := by
  simp only [processMovements]
  apply shelf_nonneg_aux events initialState ?_ ?_ hsorted
  · intro k it hit
    cases hit
  · intro r hr
    cases hr

/-- C4 counterexample: the repository's own opening-stock path enqueues a
lot dated after a sale; the sale then matches it and emits a record with
`shelf_time_days = -10 < 0`, refuting unconditional non-negativity (and
with it the claimed `timestamp <= sold_at` matching restriction). -/
theorem C4_counterexample :
    ∃ r ∈ (runWithOpeningStock [⟨"P", "L", 1, 864000, 5⟩]
      [⟨"P", "L", -1, 0, none, "sale"⟩]).shelf_time_records,
      r.shelf_time_days < 0 := by decide

/-- C4 witness: a sorted buy-then-sell stream emits a first (and only)
record, whose shelf time (one day) is non-negative. -/
theorem C4_witness :
    demoSorted.Pairwise (fun a b => a.date ≤ b.date) ∧
    0 ≤ ((processMovements demoSorted).shelf_time_records.head
      (by decide)).shelf_time_days :=
  ⟨by decide,
    C4_shelf_time_nonneg_of_sorted demoSorted (by decide) _
      (List.head_mem (by decide))⟩

/-- C5: negative shelf time is surfaced, not clamped — emitted records
carry the floored day difference verbatim, and a matched unit whose lot
timestamp lies after the outbound timestamp yields its (strictly negative)
computed value in the emitted record. -/
theorem C5_negative_shelf_time_surfaced (s : AnalyzerState)
    (e : MovementEvent) (it : StockItem) (h : e.qty < 0)
    (hit : it ∈ (getQueue s.current_stock (e.product, e.location)).take
      e.qty.natAbs)
    (hlate : e.date < it.date) :
    (⟨e.product, e.location, it.date, e.date, daysBetween e.date it.date,
      it.cost, it.reason, e.reason⟩ : ShelfTimeRecord) ∈
      (processEvent s e).shelf_time_records ∧
    daysBetween e.date it.date < 0 := by
  constructor
  · rw [outbound_records s e h]
    apply List.mem_append_right
    exact List.mem_map.mpr ⟨it, hit, rfl⟩
  · unfold daysBetween
    apply Int.fdiv_neg'
    · omega
    · norm_num

/-- C5 witness: a sale dated ten days before its matched lot produces the
record carrying shelf time -10, unclamped. -/
theorem C5_witness :
    (demoEarlySale.qty < 0 ∧
      (⟨864000, 5, "late"⟩ : StockItem) ∈
        (getQueue demoFutureState.current_stock
          (demoEarlySale.product, demoEarlySale.location)).take
          demoEarlySale.qty.natAbs ∧
      demoEarlySale.date < (⟨864000, 5, "late"⟩ : StockItem).date) ∧
    ((⟨demoEarlySale.product, demoEarlySale.location, 864000,
        demoEarlySale.date,
        daysBetween demoEarlySale.date (864000 : Int), 5, "late",
        demoEarlySale.reason⟩ : ShelfTimeRecord) ∈
      (processEvent demoFutureState demoEarlySale).shelf_time_records ∧
    daysBetween demoEarlySale.date (864000 : Int) < 0) :=
  ⟨⟨by decide, by decide, by decide⟩,
    C5_negative_shelf_time_surfaced demoFutureState demoEarlySale
      ⟨864000, 5, "late"⟩ (by decide) (by decide) (by decide)⟩

/-- C6: aging bucket totality and exclusivity — for any ledger state and
as-of instant, the four bucket sizes sum to the total remaining quantity,
and the buckets hold only items of their pairwise-disjoint age ranges, so
every remaining unit is assigned to exactly one bucket. -/
theorem C6_aging_totality_exclusivity (now : Int)
    (stock : List (LedgerKey × List StockItem)) :
    catsTotal (getAgingSummaryByCategories now stock) =
      totalRemainingQuantity stock ∧
    catsRanged (getAgingSummaryByCategories now stock) := by
  constructor
  · unfold getAgingSummaryByCategories
    rw [catsTotal_agingFold]
    simp [catsTotal]
  · unfold getAgingSummaryByCategories
    apply catsRanged_agingFold
    simp [catsRanged]

/-- C7: empty-input aggregation — zero records yield the explicit all-zero
overall statistics, empty rollups, empty mover lists and empty monthly
trend, as a value (never an error, never an absent result). -/
theorem C7_empty_input_aggregation :
    generateAnalytics [] =
      (⟨⟨0, 0, 0, 0, 0, some 0⟩, [], [], [], [], []⟩, []) := rfl

/-- C8: zero-quantity events are ignored — the whole analyzer state
(ledger, records, warnings) is returned unchanged. -/
theorem C8_zero_quantity_ignored (s : AnalyzerState) (e : MovementEvent)
    (h : e.qty = 0) : processEvent s e = s := by
  simp [processEvent, h]

/-- C8 witness: a concrete zero-quantity adjustment leaves the demo state
untouched. -/
theorem C8_witness :
    demoZero.qty = 0 ∧ processEvent demoState demoZero = demoState :=
  ⟨by decide, C8_zero_quantity_ignored demoState demoZero (by decide)⟩

/-- C9: cross-key independence — an event leaves the queue of every other
key unchanged, and the records attributed to any other key are exactly the
ones already present (no match ever draws stock from a different key). -/
theorem C9_cross_key_independence (s : AnalyzerState) (e : MovementEvent)
    (k : LedgerKey) (h : k ≠ (e.product, e.location)) :
    getQueue (processEvent s e).current_stock k = getQueue s.current_stock k ∧
    (processEvent s e).shelf_time_records.filter
        (fun r => decide (r.product = k.1 ∧ r.location = k.2)) =
      s.shelf_time_records.filter
        (fun r => decide (r.product = k.1 ∧ r.location = k.2)) := by
  refine ⟨processEvent_queue_frame s e k h, ?_⟩
  by_cases h1 : e.qty > 0
  · rw [(inbound_records_warnings s e h1).1]
  · by_cases h2 : e.qty < 0
    · rw [outbound_records s e h2, List.filter_append,
        filter_mkShelfRecord_ne _ _ _ _ _ _ h, List.append_nil]
    · simp [processEvent, h1, h2]

/-- C9 witness: a sale on ("A", "L1") does not touch key ("B", "L2"). -/
theorem C9_witness :
    (("B", "L2") : LedgerKey) ≠ (demoSale.product, demoSale.location) ∧
    (getQueue (processEvent demoState demoSale).current_stock ("B", "L2") =
      getQueue demoState.current_stock ("B", "L2") ∧
    (processEvent demoState demoSale).shelf_time_records.filter
        (fun r => decide (r.product = "B" ∧ r.location = "L2")) =
      demoState.shelf_time_records.filter
        (fun r => decide (r.product = "B" ∧ r.location = "L2"))) :=
  ⟨by decide, C9_cross_key_independence demoState demoSale ("B", "L2")
    (by decide)⟩

/-- C10: a remaining unit whose computed age in days is negative (its lot
timestamp lies after the as-of instant) is put in the first, "Fresh (0-7
days)" bucket — the first test is `days_on_shelf <= 7` with no lower
bound — and in no other bucket. -/
theorem C10_negative_age_lands_in_fresh (now : Int)
    (stock : List (LedgerKey × List StockItem)) (k : LedgerKey)
    (q : List StockItem) (it : StockItem)
    (hmem : (k, q) ∈ stock) (hit : it ∈ q)
    (hneg : daysBetween now it.date < 0) :
    (⟨k.1, k.2, daysBetween now it.date, it.cost, it.date⟩ : AgingItemInfo) ∈
      (getAgingSummaryByCategories now stock).fresh ∧
    (⟨k.1, k.2, daysBetween now it.date, it.cost, it.date⟩ : AgingItemInfo) ∉
      (getAgingSummaryByCategories now stock).medium ∧
    (⟨k.1, k.2, daysBetween now it.date, it.cost, it.date⟩ : AgingItemInfo) ∉
      (getAgingSummaryByCategories now stock).aged ∧
    (⟨k.1, k.2, daysBetween now it.date, it.cost, it.date⟩ : AgingItemInfo) ∉
      (getAgingSummaryByCategories now stock).very_aged := by
  have hranged : catsRanged (getAgingSummaryByCategories now stock) := by
    unfold getAgingSummaryByCategories
    apply catsRanged_agingFold
    simp [catsRanged]
  obtain ⟨hf, hm, ha, hv⟩ := hranged
  refine ⟨?_, ?_, ?_, ?_⟩
  · unfold getAgingSummaryByCategories
    exact fresh_mem_agingFold now stock _ k q it hmem hit (by omega)
  · intro hbad
    have := (hm _ hbad).1
    simp only at this
    omega
  · intro hbad
    have := (ha _ hbad).1
    simp only at this
    omega
  · intro hbad
    have := hv _ hbad
    simp only at this
    omega

/-- C10 witness: a unit dated ten days after the as-of instant (age -10
days) appears in the fresh bucket and nowhere else. -/
theorem C10_witness :
    ((("P", "L"), [(⟨864000, 5, "late"⟩ : StockItem)]) ∈
        [((("P", "L") : LedgerKey), [(⟨864000, 5, "late"⟩ : StockItem)])] ∧
      (⟨864000, 5, "late"⟩ : StockItem) ∈ [(⟨864000, 5, "late"⟩ : StockItem)] ∧
      daysBetween 0 (⟨864000, 5, "late"⟩ : StockItem).date < 0) ∧
    ((⟨"P", "L", daysBetween 0 (864000 : Int), 5, 864000⟩ : AgingItemInfo) ∈
      (getAgingSummaryByCategories 0
        [((("P", "L") : LedgerKey), [(⟨864000, 5, "late"⟩ : StockItem)])]).fresh ∧
    (⟨"P", "L", daysBetween 0 (864000 : Int), 5, 864000⟩ : AgingItemInfo) ∉
      (getAgingSummaryByCategories 0
        [((("P", "L") : LedgerKey), [(⟨864000, 5, "late"⟩ : StockItem)])]).medium ∧
    (⟨"P", "L", daysBetween 0 (864000 : Int), 5, 864000⟩ : AgingItemInfo) ∉
      (getAgingSummaryByCategories 0
        [((("P", "L") : LedgerKey), [(⟨864000, 5, "late"⟩ : StockItem)])]).aged ∧
    (⟨"P", "L", daysBetween 0 (864000 : Int), 5, 864000⟩ : AgingItemInfo) ∉
      (getAgingSummaryByCategories 0
        [((("P", "L") : LedgerKey), [(⟨864000, 5, "late"⟩ : StockItem)])]).very_aged) :=
  ⟨⟨by decide, by decide, by decide⟩,
    C10_negative_age_lands_in_fresh 0
      [((("P", "L") : LedgerKey), [(⟨864000, 5, "late"⟩ : StockItem)])]
      ("P", "L") [(⟨864000, 5, "late"⟩ : StockItem)]
      (⟨864000, 5, "late"⟩ : StockItem) (by decide) (by decide) (by decide)⟩
